import Mathlib

/-!
Verification of the tmplutil library (a lazy template-tree builder and
execution pipeline over `html/template`) against its specification.

The Go sources are shallowly embedded: pure helpers become Lean functions,
the `atomic.Value` slot and the writers become explicit state threaded
through the pipeline functions, and the `goto load` loop and the
recursive hook/execute chain are fuel-indexed.  The templating engine and
the Markdown renderer are external collaborators of the library; they are
modelled by the contracts the spec states for them (an engine turns a
parsed source and a data value into output or a structured execution
error; a Markdown renderer turns a byte buffer into HTML or an error).
-/

namespace Tmplutil

/-- Error values produced by filesystem operations.  `notExist` models
`fs.ErrNotExist`; `ioErr` stands for any other error value. -/
inductive FsErr where
  | notExist
  | ioErr (msg : String)
deriving DecidableEq, Repr

/-- An open file as returned by `fs.FS.Open`: `name` is what the file's
`Stat` reports as its name (which need not equal the requested path),
`content` is the file's data, and `statErr` models a failing `Stat`
call. -/
structure File where
  name : String
  content : String
  statErr : Option FsErr := none
deriving DecidableEq, Repr

/-- The `fs.FS` contract: `Open` maps a path to an open file or an
error. -/
def FS := String → Except FsErr File

/-- Scan a path's characters from the end (first list argument is the
reversed path): the extension is the suffix that begins at the final dot
of the final slash-separated element, and is empty when that element has
no dot. -/
def extFromRev : List Char → List Char → String
  | [], _ => ""
  | c :: rest, acc =>
    if c = '/' then ""
    else if c = '.' then String.mk ('.' :: acc)
    else extFromRev rest (c :: acc)

/-- Embeds `filepath.Ext`: the file-name extension of the path, i.e. the suffix
beginning at the final dot in the final element, empty when there is no
dot. -/
def Ext (path : String) : String :=
  extFromRev path.toList.reverse []

/-- Embeds `filepath.Base`: the last element of the path, after trailing slashes
are removed; `"."` for the empty path and `"/"` for a path of only
slashes. -/
def Base (path : String) : String :=
  if path = "" then "."
  else
    let stripped := path.toList.reverse.dropWhile (fun c => c = '/')
    if stripped = [] then "/"
    else String.mk ((stripped.takeWhile (fun c => c ≠ '/')).reverse)

/-- Embeds `strings.TrimSuffix`: drop the suffix when the string ends with it,
otherwise return the string unchanged. -/
def TrimSuffix (s suffix : String) : String :=
  if s.endsWith suffix then s.dropRight suffix.length else s

/-- The override-layered filesystem (`overrideFS`). -/
structure OverrideFS where
  base : FS
  override : FS

/-- Embeds `overrideFS.Open`: try the override source first; only when it fails,
fall back to the base source and return the base's result. -/
def OverrideFS.open (ov : OverrideFS) (name : String) : Except FsErr File :=
  match ov.override name with
  | .ok f => .ok f
  | .error _ => ov.base name

/-- The extension-filtering filesystem (`filterFS`). -/
structure FilterFS where
  fs : FS
  fileTypes : List String

/-- Embeds `isFileType`: does the name's extension occur in the allow-list? -/
def isFileType (name : String) (fileTypes : List String) : Bool :=
  fileTypes.any (fun fileType => Ext name = fileType)

/-- Embeds `filterFS.Open`: delegate to the underlying filesystem, then inspect
the opened file's `Stat` name (not the requested path) and reject with
`fs.ErrNotExist` when its extension is not in the allow-list; a failing
`Stat` is returned as that error. -/
def FilterFS.open (f : FilterFS) (name : String) : Except FsErr File :=
  match f.fs name with
  | .error e => .error e
  | .ok file =>
    match file.statErr with
    | some e => .error e
    | none =>
      if isFileType file.name f.fileTypes then .ok file
      else .error .notExist

/-- Output sinks (`io.Writer`) as the pipeline uses them: a base sink
accumulating the bytes written to it, or the `failWriter` marker wrapper
around another sink.  `failWriter` embeds the wrapped writer, so its
promoted `Write` is the wrapped writer's `Write`. -/
inductive Writer where
  | base (buf : String)
  | failWrap (w : Writer)
deriving DecidableEq, Repr

/-- A write: appended to the base buffer; a `failWriter` delegates to the
writer it wraps. -/
def Writer.write : Writer → String → Writer
  | .base buf, s => .base (buf ++ s)
  | .failWrap w, s => .failWrap (w.write s)

/-- The dynamic type check `w.(failWriter)`: true exactly when the writer
value itself is the `failWriter` wrapper. -/
def Writer.isFail : Writer → Bool
  | .failWrap _ => true
  | .base _ => false

/-- The bytes that have reached the underlying base sink. -/
def Writer.contents : Writer → String
  | .base buf => buf
  | .failWrap w => w.contents

/-- Strip one `failWriter` wrapper (used to recover the caller's view of
a writer that was handed to the hook wrapped). -/
def Writer.peel : Writer → Writer
  | .failWrap w => w
  | .base buf => .base buf

/-- First-match lookup in an association list; this is the read operation
of the Go `map[string]string` registries (the registries never hold
duplicate keys, so first-match agrees with the map). -/
def lookupA : List (String × String) → String → Option String
  | [], _ => none
  | (k, v) :: rest, key => if k = key then some v else lookupA rest key

/-- Embeds `Includes[name]` as an expression: a missing key reads as the zero
value `""`. -/
def lookupD (l : List (String × String)) (key : String) : String :=
  (lookupA l key).getD ""

/-- Go map insertion `m[k] = v`: replace the binding when the key is
present, otherwise add it. -/
def mapSet : List (String × String) → String → String → List (String × String)
  | [], k, v => [(k, v)]
  | (k', v') :: rest, k, v =>
    if k' = k then (k, v) :: rest else (k', v') :: mapSet rest k v

/-- A compiled template tree: the named members of the root template, each
carrying its parsed source.  (The shared function table is attached to the
root and does not affect the name set, so it is not recorded on the
tree.) -/
abbrev Tree := List (String × String)

/-- The execution side of the `html/template` contract consumed by the
pipeline (spec section 6): given one named member's parsed source and the
data value, produce the rendered output or a structured execution
error message. -/
def Engine := String → String → Except String String

/-- Render-time error values crossing the pipeline.  `noTemplate` is the
engine's error for an unregistered name, `execFail` an execution error of
a registered member, `mdFail m` the raw error returned by
`Markdown.Convert`, and `convertWrap m` the same error wrapped by
`fmt.Errorf("failed to convert markdown: %w", err)` on its way to the
failure hook. -/
inductive RErr where
  | noTemplate (name : String)
  | execFail (name msg : String)
  | mdFail (msg : String)
  | convertWrap (msg : String)
deriving DecidableEq, Repr

/-- Embeds `Template.ExecuteTemplate` against the compiled tree: an unknown name
yields the engine's "no such template" error; a known member is executed
under the engine contract `E`. -/
def renderTemplate (E : Engine) (tree : Tree) (name v : String) : Except RErr String :=
  match lookupA tree name with
  | none => .error (.noTemplate name)
  | some src =>
    match E src v with
    | .ok out => .ok out
    | .error m => .error (.execFail name m)

/-- The `Templater` configuration.  `OnRenderFail` is the optional failure
hook; `RenderFailFunc` is arbitrary host code, modelled here by the
fallback pattern the recursion guard exists for: when configured as
`some h`, the hook re-executes the templater's subtemplate `h` (with the
same data value) into the writer it is handed.  `Markdown` is the optional
Markdown renderer contract (`goldmark.Markdown.Convert`). -/
structure Templater where
  FileSystem : FS
  Includes : List (String × String)
  Functions : List String
  OnRenderFail : Option String
  Markdown : Option (String → Except String String)

/-- A subtemplate handle: in Go a pair of a back-pointer to the owning
Templater and the bound name; the templater reference is the ambient
templater of the state-passing model, so the handle carries the name. -/
structure Subtemplate where
  name : String
deriving DecidableEq, Repr

/-- Embeds `Templater.Register`: when the name is not already present, associate
it with the path; otherwise leave the registry untouched.  Either way a
Subtemplate handle for the name is returned. -/
def Templater.Register (t : Templater) (name path : String) : Templater × Subtemplate :=
  match lookupA t.Includes name with
  | some _ => (t, ⟨name⟩)
  | none => ({ t with Includes := mapSet t.Includes name path }, ⟨name⟩)

/-- Embeds `HTMLExtensions`: the extensions a file must have for `Preregister` to
treat it as a template. -/
def HTMLExtensions : List String := [".html", ".htm", ".md"]

/-- Embeds `isHTML`: does the path's extension occur in `HTMLExtensions`? -/
def isHTML (path : String) : Bool :=
  HTMLExtensions.any (fun e => e = Ext path)

/-- One visit of the `fs.WalkDir` traversal: the full path passed to the
callback and the entry's own name (`d.Name()`). -/
structure WalkEntry where
  fullPath : String
  entryName : String
deriving DecidableEq, Repr

/-- The body of `Preregister`'s walk callback: skip entries without a
template extension; otherwise derive the name by taking the base name and
stripping its extension, and register the full path unless the name is
already present. -/
def preregisterStep (inc : List (String × String)) (e : WalkEntry) : List (String × String) :=
  if isHTML e.entryName then
    let name := Base e.entryName
    let name := TrimSuffix name (Ext name)
    match lookupA inc name with
    | some _ => inc
    | none => mapSet inc name e.fullPath
  else inc

/-- Embeds `Preregister`: walk the templater's filesystem (the traversal sequence
is supplied as the list of visited entries; its order is
filesystem-dependent) and register every discovered template under its
derived name, keeping any existing registration.  A walk error is fatal
and outside the modelled runs. -/
def Preregister (entries : List WalkEntry) (t : Templater) : Templater :=
  { t with Includes := entries.foldl preregisterStep t.Includes }

/-- The `atomic.Value` slot `Templater.tmpl` holding the compiled tree.
`empty` is a Value that has never been stored to (the slot of a fresh
zero-value Templater); `stored p` is a Value holding a
`*template.Template` interface whose pointer is nil (`stored none`, the
state `Reset` produces) or some tree. -/
inductive Slot where
  | empty
  | stored (p : Option Tree)
deriving DecidableEq, Repr

/-- Embeds `tmpler.tmpl.Load().(*template.Template)`: an empty Value loads as the
nil interface, so the assertion yields a nil pointer; a stored Value
yields its (possibly nil) pointer. -/
def Slot.load : Slot → Option Tree
  | .empty => none
  | .stored p => p

/-- Embeds `tmpler.tmpl.CompareAndSwap(oldTmpl, new)` at `Load`'s call site,
where `oldTmpl` is the typed-nil `*template.Template` just observed and
`new` is the freshly built (non-nil) tree.  Per `sync/atomic`'s
`Value.CompareAndSwap`: on a Value that has never been stored, the
first-store branch succeeds only when the `old` argument is the untyped
nil interface, and a typed-nil pointer boxed into an interface is not
nil, so the call returns false and stores nothing.  On a Value holding a
typed-nil pointer (the state after `Reset`) the comparison succeeds and
the new tree is installed; on a Value holding a non-nil tree the
comparison fails. -/
def Slot.casNilToTree : Slot → Tree → Bool × Slot
  | .empty, _ => (false, .empty)
  | .stored none, tr => (true, .stored (some tr))
  | .stored (some t), _ => (false, .stored (some t))

/-- Embeds `readFile`: read a registered path through the filesystem; any error
is fatal (`log.Fatalln`), which the build models as `none`. -/
def readFileT (fs : FS) (path : String) : Option String :=
  match fs path with
  | .ok f => some f.content
  | .error _ => none

/-- The tree-building loop of `Load`: for every registered
`(name, path)`, read the source from the filesystem and parse it as the
named member (`template.Must` never fires on sources the engine contract
accepts, so the only fatal outcome modelled is an unreadable path).  The
iteration order of the Go map is unspecified; the registry list's order
stands in for one such order. -/
def buildTreeAux (fs : FS) : List (String × String) → Option Tree
  | [] => some []
  | (name, incl) :: rest =>
    match readFileT fs incl with
    | none => none
    | some src =>
      match buildTreeAux fs rest with
      | none => none
      | some tr => some ((name, src) :: tr)

/-- Build the compiled tree from the templater's registry and current
filesystem. -/
def buildTree (t : Templater) : Option Tree :=
  buildTreeAux t.FileSystem t.Includes

/-- Why a modelled run stopped without producing a value: `fatal` is a
process-terminating error (`log.Fatalln`, `template.Must`), `fuel` means
the run did not finish within the step budget (the modelled execution
diverges when this holds for every budget). -/
inductive Stuck where
  | fatal
  | fuel
deriving DecidableEq, Repr

/-- Embeds `Templater.Load` with `DebugMode = debug`, fuel-indexed to account
for the `goto load` retry loop: read the slot and return a non-nil tree
at once; otherwise build a fresh tree from the current registry and
filesystem, return it without storing in debug mode, and otherwise
attempt the compare-and-swap, retrying from the top when it fails. -/
def loadT (debug : Bool) : Nat → Templater → Slot → Except Stuck (Tree × Slot)
  | 0, _, _ => .error .fuel
  | fuel + 1, t, s =>
    match s.load with
    | some tree => .ok (tree, s)
    | none =>
      match buildTree t with
      | none => .error .fatal
      | some tree =>
        if debug then .ok (tree, s)
        else
          match s.casNilToTree tree with
          | (true, s') => .ok (tree, s')
          | (false, s') => loadT debug fuel t s'

/-- Embeds `Templater.Reset`: store a typed-nil `*template.Template` into the
slot (note that the resulting Value is a stored nil, not the empty Value
a fresh Templater starts with). -/
def Templater.Reset (_s : Slot) : Slot :=
  .stored none

deriving instance DecidableEq for Except

/-- The observable outcome of a pipeline call: `res` is the returned Go
error (`.ok none` is a nil return, `.ok (some e)` a returned error,
`.error st` a run that ended fatally or exhausted its budget mid-way);
`w` is the caller's writer afterwards and `slot` the shared slot
afterwards.  The instrumentation fields record what happened during the
call, nested hook activity included: `hookCalls` counts invocations of
the configured `OnRenderFail` hook, `hookErrs` lists the error values
those invocations were handed (outermost first), and `mdCalls` counts
invocations of `Markdown.Convert`. -/
structure ExecRes where
  res : Except Stuck (Option RErr)
  w : Writer
  slot : Slot
  hookCalls : Nat
  hookErrs : List RErr
  mdCalls : Nat
deriving DecidableEq, Repr

mutual

/-- Embeds `Templater.onRenderFail(w, tmpl, err)`: nothing happens for a nil
error or an unconfigured hook; when the writer handed to the current
render is already the `failWriter` wrapper, the hook call is suppressed
to break the recursion chain; otherwise the hook is invoked with the
writer wrapped in `failWriter` (the modelled hook re-executes the
templater's fallback subtemplate into that wrapped writer, discarding
that call's returned error, as `RenderFailFunc` returns nothing). -/
def Templater.onRenderFail (E : Engine) (debug : Bool) :
    Nat → Templater → Slot → Writer → String → String → Option RErr → ExecRes
  | 0, _, s, w, _, _, _ => ⟨.error .fuel, w, s, 0, [], 0⟩
  | fuel + 1, t, s, w, _name, v, err =>
    match err with
    | none => ⟨.ok none, w, s, 0, [], 0⟩
    | some e =>
      match t.OnRenderFail with
      | none => ⟨.ok none, w, s, 0, [], 0⟩
      | some h =>
        if w.isFail then ⟨.ok none, w, s, 0, [], 0⟩
        else
          let nst := Templater.Execute E debug fuel t s (.failWrap w) h v
          ⟨match nst.res with | .error st => .error st | .ok _ => .ok none,
           nst.w.peel, nst.slot, nst.hookCalls + 1, e :: nst.hookErrs, nst.mdCalls⟩

/-- Embeds `Templater.execute(w, tmpl, v)`: load (or fetch) the tree, execute
the named member into the writer, and on failure run `onRenderFail` on
the same writer and return the error. -/
def Templater.execute (E : Engine) (debug : Bool) :
    Nat → Templater → Slot → Writer → String → String → ExecRes
  | 0, _, s, w, _, _ => ⟨.error .fuel, w, s, 0, [], 0⟩
  | fuel + 1, t, s, w, name, v =>
    match loadT debug fuel t s with
    | .error st => ⟨.error st, w, s, 0, [], 0⟩
    | .ok (tree, s1) =>
      match renderTemplate E tree name v with
      | .ok out => ⟨.ok none, w.write out, s1, 0, [], 0⟩
      | .error e =>
        let r2 := Templater.onRenderFail E debug fuel t s1 w name v (some e)
        ⟨match r2.res with | .error st => .error st | .ok _ => .ok (some e),
         r2.w, r2.slot, r2.hookCalls, r2.hookErrs, r2.mdCalls⟩

/-- Embeds `Templater.Execute(w, tmpl, v)`: when a Markdown renderer is
configured and the registered source path of the name has the `.md`
extension, render the member into a fresh in-memory buffer, then convert
the buffer's bytes through the renderer into the real sink; a template
failure is returned before any conversion, and a conversion failure is
reported to `onRenderFail` wrapped as a conversion error while the raw
error is returned.  In every other case, execute straight into the real
sink. -/
def Templater.Execute (E : Engine) (debug : Bool) :
    Nat → Templater → Slot → Writer → String → String → ExecRes
  | 0, _, s, w, _, _ => ⟨.error .fuel, w, s, 0, [], 0⟩
  | fuel + 1, t, s, w, name, v =>
    match t.Markdown with
    | some md =>
      if Ext (lookupD t.Includes name) = ".md" then
        let r1 := Templater.execute E debug fuel t s (.base "") name v
        match r1.res with
        | .error st => ⟨.error st, w, r1.slot, r1.hookCalls, r1.hookErrs, r1.mdCalls⟩
        | .ok (some e) => ⟨.ok (some e), w, r1.slot, r1.hookCalls, r1.hookErrs, r1.mdCalls⟩
        | .ok none =>
          match md r1.w.contents with
          | .ok html =>
            ⟨.ok none, w.write html, r1.slot, r1.hookCalls, r1.hookErrs, r1.mdCalls + 1⟩
          | .error m =>
            let r2 := Templater.onRenderFail E debug fuel t r1.slot w name v
              (some (.convertWrap m))
            ⟨match r2.res with | .error st => .error st | .ok _ => .ok (some (.mdFail m)),
             r2.w, r2.slot, r1.hookCalls + r2.hookCalls, r1.hookErrs ++ r2.hookErrs,
             r1.mdCalls + 1 + r2.mdCalls⟩
      else Templater.execute E debug fuel t s w name v
    | none => Templater.execute E debug fuel t s w name v

end

/-- Embeds `Subtemplate.Execute(w, v)`: delegate to the owning templater's
`Execute` with the bound name. -/
def Subtemplate.Execute (E : Engine) (debug : Bool) (fuel : Nat) (t : Templater)
    (sub : Subtemplate) (s : Slot) (w : Writer) (v : String) : ExecRes :=
  Templater.Execute E debug fuel t s w sub.name v

/-- The program counter of one caller running `Load` (`DebugMode`
false): at the top of the loop, holding a freshly built tree before its
compare-and-swap, or returned with a tree. -/
inductive TPC where
  | start
  | built (tr : Tree)
  | finished (tr : Tree)
deriving DecidableEq, Repr

/-- A global state of `N` concurrent `Load` callers: the shared
`atomic.Value` slot and each caller's position. -/
structure Config where
  slot : Slot
  threads : List TPC
deriving DecidableEq, Repr

/-- One interleaved atomic step of some caller `i` of `Load` on the
shared templater `t`: read a non-nil slot and return it; read a nil slot
and build a private tree (the build touches no shared state); or perform
the compare-and-swap, returning the built tree on success and retrying
from the top on failure. -/
inductive LoadStep (t : Templater) : Config → Config → Prop where
  | readInstalled (c : Config) (i : Nat) (tr : Tree)
      (hi : c.threads.get? i = some .start)
      (hl : c.slot.load = some tr) :
      LoadStep t c ⟨c.slot, c.threads.set i (.finished tr)⟩
  | buildAfterNil (c : Config) (i : Nat) (tr : Tree)
      (hi : c.threads.get? i = some .start)
      (hl : c.slot.load = none)
      (hb : buildTree t = some tr) :
      LoadStep t c ⟨c.slot, c.threads.set i (.built tr)⟩
  | casWin (c : Config) (i : Nat) (tr : Tree) (s' : Slot)
      (hi : c.threads.get? i = some (.built tr))
      (hc : c.slot.casNilToTree tr = (true, s')) :
      LoadStep t c ⟨s', c.threads.set i (.finished tr)⟩
  | casLose (c : Config) (i : Nat) (tr : Tree) (s' : Slot)
      (hi : c.threads.get? i = some (.built tr))
      (hc : c.slot.casNilToTree tr = (false, s')) :
      LoadStep t c ⟨s', c.threads.set i .start⟩

/-- The initial state of `n` concurrent first-time callers against a
freshly constructed Templater: the slot has never been stored to and
every caller is about to enter `Load`. -/
def initConfig (n : Nat) : Config :=
  ⟨.empty, List.replicate n .start⟩

/-- A filesystem with no files (used where the tree is already given by
the slot). -/
def fsEmpty : FS := fun _ => .error .notExist

/-- A one-file filesystem for the fresh-Templater runs. -/
def fsIndex : FS := fun p =>
  if p = "index.html" then .ok ⟨"index.html", "hello", none⟩ else .error .notExist

/-- A fresh zero-value Templater over `fsIndex`, one registered
template. -/
def tIndex : Templater :=
  ⟨fsIndex, [("index", "index.html")], [], none, none⟩

/-- The literal engine: a template of plain text renders to its own
source (how `html/template` renders action-free sources). -/
def engLit : Engine := fun src _ => .ok src

/-- An engine under which the source `"BOOM"` fails at execution time
(as a registered template can in `html/template`, e.g. through a missing
field or an erroring function) and every other source renders
literally. -/
def engBoom : Engine := fun src _ =>
  if src = "BOOM" then .error "boom" else .ok src

/-- A Markdown renderer that succeeds on every buffer. -/
def mdWrap : String → Except String String := fun s => .ok ("<p>" ++ s ++ "</p>")

/-- Round-trip fixtures for debug mode: the same registry over two
filesystem states, before and after an edit of `n.html`. -/
def fsBefore : FS := fun p =>
  if p = "n.html" then .ok ⟨"n.html", "hello", none⟩ else .error .notExist

/-- The filesystem after the edit. -/
def fsAfter : FS := fun p =>
  if p = "n.html" then .ok ⟨"n.html", "goodbye", none⟩ else .error .notExist

/-- The debug-mode templater (no Markdown renderer, no hook). -/
def tDebug : Templater :=
  ⟨fsBefore, [("n", "n.html")], [], none, none⟩

/-- The recursion-guard failing input: a failure hook that re-renders
the fallback `"err"`, which is registered at a `.md` path and whose
execution fails, together with a configured Markdown renderer. -/
def tRec : Templater :=
  ⟨fsEmpty, [("page", "page.html"), ("err", "err.md")], [], some "err", some mdWrap⟩

/-- The loaded tree for `tRec`: both members fail under `engBoom`. -/
def treeRec : Tree := [("page", "BOOM"), ("err", "BOOM")]

/-- The Markdown-pipeline counterexample input: the top-level `.md`
template fails, while the hook's fallback `"fb"` is registered at a
`.md` path and renders fine, so the hook's re-render reaches the
Markdown converter. -/
def tCnv : Templater :=
  ⟨fsEmpty, [("page", "page.md"), ("fb", "fb.md")], [], some "fb", some mdWrap⟩

/-- The loaded tree for `tCnv`. -/
def treeCnv : Tree := [("page", "BOOM"), ("fb", "fine")]

/-- A Markdown templater without a hook, for the amended pipeline
property. -/
def tMd : Templater :=
  ⟨fsEmpty, [("page", "page.md")], [], none, some mdWrap⟩

/-- Its loaded tree, with a rendering member. -/
def treeMd : Tree := [("page", "hello")]

/-- Error-propagation fixtures: a failing page plus a working non-`.md`
fallback for the hook. -/
def tErr : Templater :=
  ⟨fsEmpty, [("page", "page.html"), ("fb", "fb.html")], [], some "fb", none⟩

/-- The loaded tree for `tErr`. -/
def treeErr : Tree := [("page", "BOOM"), ("fb", "fine")]

/-- Override-precedence fixtures: the path `"p"` present in both
layers. -/
def fsBaseLayer : FS := fun p =>
  if p = "p" then .ok ⟨"p", "base content", none⟩ else .error .notExist

/-- The override layer for the same path. -/
def fsOverLayer : FS := fun p =>
  if p = "p" then .ok ⟨"p", "override content", none⟩ else .error .notExist

/-- Filter fixtures: an underlying filesystem whose opened file reports
a `Stat` name different from the requested path. -/
def fsStat : FS := fun p =>
  if p = "page.html" then .ok ⟨"page.txt", "data", none⟩ else .error .notExist

/-- Registry fixtures: an explicitly registered name that a later walk
would also discover. -/
def tReg : Templater :=
  ⟨fsEmpty, [("index", "pages/index.html")], [], none, none⟩

/-- The walk sequence that rediscovers `index` at another path. -/
def walkReg : List WalkEntry :=
  [⟨"root/index.html", "index.html"⟩, ⟨"root/about.html", "about.html"⟩]

theorem Writer.contents_write (w : Writer) (s : String) :
    (w.write s).contents = w.contents ++ s := by
  induction w with
  | base buf => rfl
  | failWrap w ih => simpa [Writer.write, Writer.contents] using ih

theorem lookupA_mapSet (l : List (String × String)) (k v key : String) :
    lookupA (mapSet l k v) key = if k = key then some v else lookupA l key := by
  induction l with
  | nil => simp [mapSet, lookupA]
  | cons kv rest ih =>
    obtain ⟨k', v'⟩ := kv
    by_cases hk : k' = k
    · subst hk
      by_cases hkey : k' = key <;> simp [mapSet, lookupA, hkey]
    · by_cases hkey : k' = key
      · subst hkey
        have : ¬ k = k' := fun h => hk h.symm
        simp [mapSet, lookupA, hk, this]
      · simp [mapSet, lookupA, hk, hkey, ih]

theorem lookupA_preregisterStep (inc : List (String × String)) (e : WalkEntry)
    (k v : String) (h : lookupA inc k = some v) :
    lookupA (preregisterStep inc e) k = some v := by
  unfold preregisterStep
  by_cases hh : isHTML e.entryName
  · simp only [hh, if_true]
    set nm := TrimSuffix (Base e.entryName) (Ext (Base e.entryName)) with hnm
    cases hl : lookupA inc nm with
    | some p => simpa [hl] using h
    | none =>
      simp only [hl]
      rw [lookupA_mapSet]
      have hne : ¬ nm = k := by
        intro hk
        rw [hk, h] at hl
        exact Option.noConfusion hl
      simp [hne, h]
  · simpa [hh] using h

theorem lookupA_preregister (entries : List WalkEntry)
    (inc : List (String × String)) (k v : String) (h : lookupA inc k = some v) :
    lookupA (entries.foldl preregisterStep inc) k = some v := by
  induction entries generalizing inc with
  | nil => simpa using h
  | cons e rest ih =>
    simpa using ih (preregisterStep inc e) (lookupA_preregisterStep inc e k v h)

/-- C1: with `DebugMode` false, `Load` on a fresh Templater (whose
`atomic.Value` slot has never been stored to) never installs a tree and
never returns: the compare-and-swap of the observed typed-nil pointer
against the never-stored Value fails, so the `goto load` loop re-reads
nil, rebuilds and retries forever — contrary to the claim that the first
call installs the built tree via the compare-and-swap and returns it.
The hypothesis says the registry is readable, so the loop is not cut
short by a fatal read error. -/
theorem load_fresh_slot_never_installs (t : Templater) (tr : Tree) (fuel : Nat)
    (h : buildTree t = some tr) :
    loadT false fuel t .empty = .error .fuel := by
  induction fuel with
  | zero => rfl
  | succ n ih => simp [loadT, Slot.load, h, Slot.casNilToTree, ih]

theorem load_fresh_slot_never_installs_witness :
    loadT false 7 tIndex .empty = .error .fuel :=
  load_fresh_slot_never_installs tIndex [("index", "hello")] 7 (by decide)

/-- C2: against a freshly constructed Templater, no interleaving of any
number of concurrent first-time `Load` callers ever installs a tree or
lets a caller return: every reachable state still has the never-stored
slot and no finished thread, because the compare-and-swap from the
observed typed-nil pointer always fails on the never-stored Value —
contrary to the claim that exactly one compiled tree is installed and
every call succeeds. -/
theorem concurrent_first_load_no_winner (t : Templater) (n : Nat) (c : Config)
    (h : Relation.ReflTransGen (LoadStep t) (initConfig n) c) :
    c.slot = .empty ∧ ∀ pc ∈ c.threads, ∀ tr, pc ≠ TPC.finished tr := by
  induction h with
  | refl =>
    refine ⟨rfl, ?_⟩
    intro pc hpc tr
    have := List.eq_of_mem_replicate hpc
    simp [this]
  | tail hsteps hstep ih =>
    obtain ⟨hslot, hthreads⟩ := ih
    cases hstep with
    | readInstalled i tr hi hl =>
      rw [hslot] at hl
      exact absurd hl (by simp [Slot.load])
    | buildAfterNil i tr hi hl hb =>
      refine ⟨hslot, ?_⟩
      intro pc hpc tr'
      rcases List.mem_or_eq_of_mem_set hpc with hmem | heq
      · exact hthreads pc hmem tr'
      · simp [heq]
    | casWin i tr s' hi hc =>
      rw [hslot] at hc
      simp [Slot.casNilToTree] at hc
    | casLose i tr s' hi hc =>
      rw [hslot] at hc
      have h2 := congrArg Prod.snd hc
      simp only [Slot.casNilToTree] at h2
      subst h2
      refine ⟨rfl, ?_⟩
      intro pc hpc tr'
      rcases List.mem_or_eq_of_mem_set hpc with hmem | heq
      · exact hthreads pc hmem tr'
      · simp [heq]

theorem concurrent_first_load_no_winner_witness :
    (initConfig 2).slot = .empty ∧
      ∀ pc ∈ (initConfig 2).threads, ∀ tr, pc ≠ TPC.finished tr :=
  concurrent_first_load_no_winner tIndex 2 (initConfig 2) Relation.ReflTransGen.refl

theorem string_append_left_cancel (a b c : String) (h : a ++ b = a ++ c) : b = c := by
  have hd := congrArg String.data h
  simp [String.data_append] at hd
  exact String.ext hd

/-- C3: with `DebugMode` true every `Load` rebuilds the tree from the
current registry and filesystem and returns it without storing it into
the shared slot (the slot, which stays nil throughout a debug-mode
process, is returned untouched); consequently editing a template's
source between two `Execute` calls for the same name changes the second
call's output, with no `Reset` in between.  `fs1` and `fs2` are the
filesystem before and after the edit; the hypotheses say the registry is
readable in both states and that the engine renders the two sources to
distinct outputs. -/
theorem debug_mode_reload_roundtrip
    (t : Templater) (fs1 fs2 : FS) (E : Engine) (s : Slot) (w : Writer)
    (fuel : Nat) (n v c1 c2 : String) (tr1 tr2 : Tree)
    (hs : s.load = none)
    (hmd : t.Markdown = none)
    (h1 : buildTree { t with FileSystem := fs1 } = some tr1)
    (h2 : buildTree { t with FileSystem := fs2 } = some tr2)
    (hr1 : renderTemplate E tr1 n v = .ok c1)
    (hr2 : renderTemplate E tr2 n v = .ok c2)
    (hne : c1 ≠ c2) :
    loadT true (fuel + 1) { t with FileSystem := fs1 } s = .ok (tr1, s) ∧
    loadT true (fuel + 1) { t with FileSystem := fs2 } s = .ok (tr2, s) ∧
    Templater.Execute E true (fuel + 3) { t with FileSystem := fs1 } s w n v
      = ⟨.ok none, w.write c1, s, 0, [], 0⟩ ∧
    Templater.Execute E true (fuel + 3) { t with FileSystem := fs2 } s w n v
      = ⟨.ok none, w.write c2, s, 0, [], 0⟩ ∧
    (w.write c1).contents ≠ (w.write c2).contents := by
  set t1 : Templater := { t with FileSystem := fs1 } with ht1
  set t2 : Templater := { t with FileSystem := fs2 } with ht2
  have l1 : loadT true (fuel + 1) t1 s = .ok (tr1, s) := by
    simp [loadT, hs, h1]
  have l2 : loadT true (fuel + 1) t2 s = .ok (tr2, s) := by
    simp [loadT, hs, h2]
  refine ⟨l1, l2, ?_, ?_, ?_⟩
  · simp [Templater.Execute, hmd, Templater.execute, l1, hr1]
  · simp [Templater.Execute, hmd, Templater.execute, l2, hr2]
  · intro heq
    rw [Writer.contents_write, Writer.contents_write] at heq
    exact hne (string_append_left_cancel _ _ _ heq)

theorem debug_mode_reload_roundtrip_witness :
    loadT true 4 { tDebug with FileSystem := fsBefore } .empty
      = .ok ([("n", "hello")], .empty) ∧
    loadT true 4 { tDebug with FileSystem := fsAfter } .empty
      = .ok ([("n", "goodbye")], .empty) ∧
    Templater.Execute engLit true 6 { tDebug with FileSystem := fsBefore } .empty
      (.base "") "n" "v" = ⟨.ok none, (Writer.base "").write "hello", .empty, 0, [], 0⟩ ∧
    Templater.Execute engLit true 6 { tDebug with FileSystem := fsAfter } .empty
      (.base "") "n" "v" = ⟨.ok none, (Writer.base "").write "goodbye", .empty, 0, [], 0⟩ ∧
    ((Writer.base "").write "hello").contents ≠ ((Writer.base "").write "goodbye").contents :=
  debug_mode_reload_roundtrip tDebug fsBefore fsAfter engLit .empty (.base "")
    3 "n" "v" "hello" "goodbye" [("n", "hello")] [("n", "goodbye")]
    rfl rfl (by decide) (by decide) (by decide) (by decide) (by decide)

theorem string_empty_append (s : String) : "" ++ s = s := by
  cases s
  rfl

theorem onRenderFail_anatomy (E : Engine) (debug : Bool) (k : Nat)
    (t : Templater) (s : Slot) (w : Writer) (n v : String) (e : RErr)
    (hw : w.isFail = false) (r2 : ExecRes) (y : Option RErr)
    (hrun : Templater.onRenderFail E debug k t s w n v (some e) = r2)
    (hres : r2.res = .ok y) :
    (t.OnRenderFail = none → r2 = ⟨.ok none, w, s, 0, [], 0⟩) ∧
    (∀ h0, t.OnRenderFail = some h0 → 1 ≤ r2.hookCalls ∧ e ∈ r2.hookErrs) := by
  cases k with
  | zero =>
    subst hrun
    exact absurd hres (by simp [Templater.onRenderFail])
  | succ k =>
    cases hOn : t.OnRenderFail with
    | none =>
      have hval : Templater.onRenderFail E debug (k + 1) t s w n v (some e)
          = ⟨.ok none, w, s, 0, [], 0⟩ := by
        simp only [Templater.onRenderFail, hOn]
      refine ⟨fun _ => by rw [← hrun, hval], fun h0 hh => by simp [hOn] at hh⟩
    | some h0 =>
      have hval : Templater.onRenderFail E debug (k + 1) t s w n v (some e)
          = (let nst := Templater.Execute E debug k t s (.failWrap w) h0 v
             ⟨match nst.res with | .error st => .error st | .ok _ => .ok none,
              nst.w.peel, nst.slot, nst.hookCalls + 1, e :: nst.hookErrs, nst.mdCalls⟩) := by
        simp only [Templater.onRenderFail, hOn, hw, Bool.false_eq_true, if_false]
      refine ⟨fun hno => absurd hno (by simp), fun h1 hh => ?_⟩
      rw [← hrun, hval]
      exact ⟨Nat.le_add_left 1 _, List.mem_cons_self e _⟩

theorem execute_render_ok (E : Engine) (debug : Bool) (k : Nat)
    (t : Templater) (tree : Tree) (w : Writer) (n v o : String)
    (hr : renderTemplate E tree n v = .ok o) :
    Templater.execute E debug (k + 2) t (.stored (some tree)) w n v
      = ⟨.ok none, w.write o, .stored (some tree), 0, [], 0⟩ := by
  simp [Templater.execute, loadT, Slot.load, hr]

theorem execute_failure_anatomy (E : Engine) (debug : Bool) (fuel : Nat)
    (t : Templater) (tree : Tree) (w : Writer) (n v : String) (e : RErr)
    (hr : renderTemplate E tree n v = .error e)
    (hw : w.isFail = false)
    (r : ExecRes)
    (hrun : Templater.execute E debug fuel t (.stored (some tree)) w n v = r)
    (x : Option RErr) (hres : r.res = .ok x) :
    x = some e ∧
    (t.OnRenderFail = none → r = ⟨.ok (some e), w, .stored (some tree), 0, [], 0⟩) ∧
    (∀ h0, t.OnRenderFail = some h0 → 1 ≤ r.hookCalls ∧ e ∈ r.hookErrs) := by
  cases fuel with
  | zero =>
    subst hrun
    exact absurd hres (by simp [Templater.execute])
  | succ f =>
    cases f with
    | zero =>
      subst hrun
      exact absurd hres (by simp [Templater.execute, loadT])
    | succ k =>
      have hval : Templater.execute E debug (k + 1 + 1) t (.stored (some tree)) w n v
          = (let r2 := Templater.onRenderFail E debug (k + 1) t (.stored (some tree)) w n v
               (some e)
             ⟨match r2.res with | .error st => .error st | .ok _ => .ok (some e),
              r2.w, r2.slot, r2.hookCalls, r2.hookErrs, r2.mdCalls⟩) := by
        simp only [Templater.execute, loadT, Slot.load, hr]
      rcases h2 : Templater.onRenderFail E debug (k + 1) t (.stored (some tree)) w n v
          (some e) with ⟨res2, w2, s2, hc2, he2, mc2⟩
      rw [h2] at hval
      cases res2 with
      | error st =>
        rw [← hrun, hval] at hres
        exact absurd hres (by simp)
      | ok y2 =>
        have hana := onRenderFail_anatomy E debug (k + 1) t (.stored (some tree)) w n v e hw
          ⟨.ok y2, w2, s2, hc2, he2, mc2⟩ y2 h2 rfl
        have hrr : r = ⟨.ok (some e), w2, s2, hc2, he2, mc2⟩ := by
          rw [← hrun, hval]
        refine ⟨?_, ?_, ?_⟩
        · rw [hrr] at hres
          simpa using hres.symm
        · intro hno
          have hfields := hana.1 hno
          simp only [ExecRes.mk.injEq] at hfields
          rw [hrr]
          simp [hfields.2.1, hfields.2.2.1, hfields.2.2.2.1, hfields.2.2.2.2]
        · intro h0 hh
          have := hana.2 h0 hh
          rw [hrr]
          exact this

theorem Execute_nonmd (E : Engine) (debug : Bool) (f : Nat)
    (t : Templater) (s : Slot) (w : Writer) (n v : String)
    (hroute : t.Markdown = none ∨ Ext (lookupD t.Includes n) ≠ ".md") :
    Templater.Execute E debug (f + 1) t s w n v =
      Templater.execute E debug f t s w n v := by
  cases hmd : t.Markdown with
  | none => simp [Templater.Execute, hmd]
  | some md0 =>
    rcases hroute with h | h
    · rw [hmd] at h
      cases h
    · simp [Templater.Execute, hmd, h]

/-- C4: evaluation of `Execute` at the failing input for the recursion
guard.  `tRec` has a configured failure hook (modelled as re-rendering
the fallback `"err"`) and a Markdown renderer; `"err"` is registered at
a `.md` path and its execution fails under `engBoom`.  One top-level
`Execute` on an unwrapped sink then invokes the hook twice and more —
ten times within a budget of 30 steps, twenty within 60, growing without
bound (a stack overflow in the real program) — because the `.md`
redirection renders into a fresh in-memory buffer that is not
`failWriter`-wrapped, so the check meant to break the recursion chain
never fires below it.  This contradicts the claimed exactly-once hook
invocation per top-level call. -/
theorem md_hook_recursion_guard_defeated :
    2 ≤ (Templater.Execute engBoom false 30 tRec (.stored (some treeRec))
        (.base "") "page" "v").hookCalls ∧
    (Templater.Execute engBoom false 30 tRec (.stored (some treeRec))
        (.base "") "page" "v").hookCalls <
      (Templater.Execute engBoom false 60 tRec (.stored (some treeRec))
        (.base "") "page" "v").hookCalls := by decide

/-- C5 counterexample: on `tCnv` the `.md`-registered template `"page"`
fails under `engBoom`, and the failure hook re-renders the fallback
`"fb"`, itself registered at a `.md` path and rendering fine.  The call
returns the template's own error and writes nothing to the real sink —
yet the Markdown renderer is invoked once (`mdCalls = 1`, converting the
hook's fallback output inside the buffer), refuting the claim that a
failing template rendering means the Markdown renderer is never
invoked. -/
theorem md_failure_still_converts_counterexample :
    Templater.Execute engBoom false 30 tCnv (.stored (some treeCnv))
      (.base "pre") "page" "v"
      = ⟨.ok (some (.execFail "page" "boom")), .base "pre",
         .stored (some treeCnv), 1, [.execFail "page" "boom"], 1⟩ := by decide

/-- C5 (amended): for a template registered at a `.md` path with a
Markdown renderer configured (tree loaded in the slot), a completed
call's output to the real sink is exactly the Markdown rendering of the
template's own output: the member renders into a fresh buffer and the
converted buffer is what reaches the sink; and when the template
rendering itself fails, the real sink receives no bytes under any fuel
and any hook, while — without a configured failure hook — the Markdown
renderer is not invoked at all and the template's error is returned.  (A
configured hook may itself trigger Markdown conversions of its own
fallback content, confined to the buffer, as the counterexample shows;
that is the one respect in which the original claim fails.) -/
theorem markdown_pipeline_amended
    (E : Engine) (t : Templater) (tree : Tree) (md : String → Except String String)
    (n v : String) (w : Writer) (fuel : Nat)
    (hmd : t.Markdown = some md)
    (hpath : Ext (lookupD t.Includes n) = ".md") :
    (∀ o h, renderTemplate E tree n v = .ok o → md o = .ok h →
      Templater.Execute E false (fuel + 3) t (.stored (some tree)) w n v
        = ⟨.ok none, w.write h, .stored (some tree), 0, [], 1⟩) ∧
    (∀ e, renderTemplate E tree n v = .error e →
      (Templater.Execute E false fuel t (.stored (some tree)) w n v).w = w) ∧
    (∀ e, renderTemplate E tree n v = .error e → t.OnRenderFail = none →
      Templater.Execute E false (fuel + 3) t (.stored (some tree)) w n v
        = ⟨.ok (some e), w, .stored (some tree), 0, [], 0⟩) := by
  refine ⟨?_, ?_, ?_⟩
  · intro o h hr hc
    have h1 := execute_render_ok E false fuel t tree (.base "") n v o hr
    have hbuf : ((Writer.base "").write o).contents = o := by
      simp [Writer.write, Writer.contents, string_empty_append]
    simp only [Templater.Execute, hmd]
    rw [if_pos hpath, h1]
    simp only [hbuf]
    rw [hc]
  · intro e hr
    cases fuel with
    | zero => rfl
    | succ f =>
      simp only [Templater.Execute, hmd]
      rw [if_pos hpath]
      rcases hx : Templater.execute E false f t (.stored (some tree)) (.base "") n v
        with ⟨res1, w1, s1, hc1, he1, mc1⟩
      cases res1 with
      | error st => rfl
      | ok x1 =>
        cases x1 with
        | some e2 => rfl
        | none =>
          have := (execute_failure_anatomy E false f t tree (.base "") n v e hr rfl
            ⟨.ok none, w1, s1, hc1, he1, mc1⟩ hx none rfl).1
          exact absurd this (by simp)
  · intro e hr hno
    have h2 : Templater.onRenderFail E false (fuel + 1) t (.stored (some tree)) (.base "")
        n v (some e) = ⟨.ok none, .base "", .stored (some tree), 0, [], 0⟩ := by
      simp only [Templater.onRenderFail, hno]
    have h1 : Templater.execute E false (fuel + 1 + 1) t (.stored (some tree)) (.base "") n v
        = ⟨.ok (some e), .base "", .stored (some tree), 0, [], 0⟩ := by
      simp only [Templater.execute, loadT, Slot.load, hr, h2]
    simp only [Templater.Execute, hmd]
    rw [if_pos hpath, h1]

theorem markdown_pipeline_amended_witness :
    Templater.Execute engLit false 9 tMd (.stored (some treeMd)) (.base "sink") "page" "v"
      = ⟨.ok none, (Writer.base "sink").write "<p>hello</p>", .stored (some treeMd),
        0, [], 1⟩ :=
  (markdown_pipeline_amended engLit tMd treeMd mdWrap "page" "v" (.base "sink") 6
      rfl (by decide)).1 "hello" "<p>hello</p>" (by decide) (by decide)

/-- C6: `Execute` never swallows an execution error.  For a loaded
templater and an unwrapped sink, whenever a call completes (returns at
all): a failing engine render makes it return exactly that error, with
the failure hook — when configured — invoked at least once and handed
that error, and not invoked at all when unconfigured; on the Markdown
route a failing template render likewise returns the template's error
to the caller with the same hook guarantees (the hook runs against the
in-memory buffer there), and a failing conversion returns the raw
conversion error while the hook is handed the same error wrapped as a
conversion-stage error.  The returned error value is fixed by the
failing stage alone; the hook's side effects surface only in the writer
and the instrumentation fields. -/
theorem execute_never_swallows_errors
    (E : Engine) (t : Templater) (tree : Tree) (md : String → Except String String)
    (n v : String) (w : Writer) (fuel : Nat) (r : ExecRes) (x : Option RErr)
    (hw : w.isFail = false)
    (hrun : Templater.Execute E false fuel t (.stored (some tree)) w n v = r)
    (hres : r.res = .ok x) :
    (∀ e, (t.Markdown = none ∨ Ext (lookupD t.Includes n) ≠ ".md") →
      renderTemplate E tree n v = .error e →
      x = some e ∧
      (t.OnRenderFail = none → r.hookCalls = 0) ∧
      (∀ h0, t.OnRenderFail = some h0 → 1 ≤ r.hookCalls ∧ e ∈ r.hookErrs)) ∧
    (∀ e mdr, t.Markdown = some mdr → Ext (lookupD t.Includes n) = ".md" →
      renderTemplate E tree n v = .error e →
      x = some e ∧
      (t.OnRenderFail = none → r.hookCalls = 0) ∧
      (∀ h0, t.OnRenderFail = some h0 → 1 ≤ r.hookCalls ∧ e ∈ r.hookErrs)) ∧
    (∀ o m, t.Markdown = some md → Ext (lookupD t.Includes n) = ".md" →
      renderTemplate E tree n v = .ok o → md o = .error m →
      x = some (.mdFail m) ∧
      (∀ h0, t.OnRenderFail = some h0 →
        1 ≤ r.hookCalls ∧ RErr.convertWrap m ∈ r.hookErrs)) := by
  refine ⟨?_, ?_, ?_⟩
  · intro e hroute hr
    cases fuel with
    | zero =>
      subst hrun
      exact absurd hres (by simp [Templater.Execute])
    | succ f =>
      rw [Execute_nonmd E false f t _ w n v hroute] at hrun
      have hana := execute_failure_anatomy E false f t tree w n v e hr hw r hrun x hres
      refine ⟨hana.1, fun hno => by rw [hana.2.1 hno], hana.2.2⟩
  · intro e mdr hmd2 hpath hr
    cases fuel with
    | zero =>
      subst hrun
      exact absurd hres (by simp [Templater.Execute])
    | succ f =>
      rcases hx : Templater.execute E false f t (.stored (some tree)) (.base "") n v
        with ⟨res1, w1, s1, hc1, he1, mc1⟩
      cases res1 with
      | error st =>
        have hval : Templater.Execute E false (f + 1) t (.stored (some tree)) w n v
            = ⟨.error st, w, s1, hc1, he1, mc1⟩ := by
          simp only [Templater.Execute, hmd2]
          rw [if_pos hpath, hx]
        rw [← hrun, hval] at hres
        exact absurd hres (by simp)
      | ok x1 =>
        cases x1 with
        | none =>
          have := (execute_failure_anatomy E false f t tree (.base "") n v e hr rfl
            ⟨.ok none, w1, s1, hc1, he1, mc1⟩ hx none rfl).1
          exact absurd this (by simp)
        | some e2 =>
          have hana := execute_failure_anatomy E false f t tree (.base "") n v e hr rfl
            ⟨.ok (some e2), w1, s1, hc1, he1, mc1⟩ hx (some e2) rfl
          have hval : Templater.Execute E false (f + 1) t (.stored (some tree)) w n v
              = ⟨.ok (some e2), w, s1, hc1, he1, mc1⟩ := by
            simp only [Templater.Execute, hmd2]
            rw [if_pos hpath, hx]
          have hrr : r = ⟨.ok (some e2), w, s1, hc1, he1, mc1⟩ := by
            rw [← hrun, hval]
          refine ⟨?_, ?_, ?_⟩
          · rw [hrr] at hres
            simp only [ExecRes.res] at hres
            exact (Except.ok.inj hres).symm.trans hana.1
          · intro hno
            have hfields := hana.2.1 hno
            simp only [ExecRes.mk.injEq] at hfields
            rw [hrr]
            exact hfields.2.2.2.1
          · intro h0 hh
            have hk := hana.2.2 h0 hh
            rw [hrr]
            exact hk
  · intro o m hmd2 hpath hr hcv
    cases fuel with
    | zero =>
      subst hrun
      exact absurd hres (by simp [Templater.Execute])
    | succ f =>
      cases f with
      | zero =>
        have hval : Templater.Execute E false (0 + 1) t (.stored (some tree)) w n v
            = ⟨.error .fuel, w, .stored (some tree), 0, [], 0⟩ := by
          simp only [Templater.Execute, hmd2]
          rw [if_pos hpath]
          rfl
        rw [← hrun, hval] at hres
        exact absurd hres (by simp)
      | succ f1 =>
        cases f1 with
        | zero =>
          have hval : Templater.Execute E false (0 + 1 + 1) t (.stored (some tree)) w n v
              = ⟨.error .fuel, w, .stored (some tree), 0, [], 0⟩ := by
            simp only [Templater.Execute, hmd2]
            rw [if_pos hpath]
            rfl
          rw [← hrun, hval] at hres
          exact absurd hres (by simp)
        | succ k =>
          have h1 := execute_render_ok E false k t tree (.base "") n v o hr
          have hbuf : ((Writer.base "").write o).contents = o := by
            simp [Writer.write, Writer.contents, string_empty_append]
          rcases h2 : Templater.onRenderFail E false (k + 2) t (.stored (some tree))
              w n v (some (.convertWrap m)) with ⟨res2, w2, s2, hc2, he2, mc2⟩
          cases res2 with
          | error st =>
            have hval : Templater.Execute E false (k + 1 + 1 + 1) t (.stored (some tree))
                w n v = ⟨.error st, w2, s2, 0 + hc2, [] ++ he2, 0 + 1 + mc2⟩ := by
              simp only [Templater.Execute, hmd2, hpath, h1, hbuf, hcv, h2, if_true]
            rw [← hrun, hval] at hres
            exact absurd hres (by simp)
          | ok y =>
            have hval : Templater.Execute E false (k + 1 + 1 + 1) t (.stored (some tree))
                w n v = ⟨.ok (some (.mdFail m)), w2, s2, 0 + hc2, [] ++ he2,
                  0 + 1 + mc2⟩ := by
              simp only [Templater.Execute, hmd2, hpath, h1, hbuf, hcv, h2, if_true]
            have hrr : r = ⟨.ok (some (.mdFail m)), w2, s2, 0 + hc2, [] ++ he2,
                0 + 1 + mc2⟩ := by
              rw [← hrun, hval]
            have hana := onRenderFail_anatomy E false (k + 2) t (.stored (some tree))
              w n v (.convertWrap m) hw ⟨.ok y, w2, s2, hc2, he2, mc2⟩ y h2 rfl
            refine ⟨?_, ?_⟩
            · rw [hrr] at hres
              simp only [ExecRes.res] at hres
              exact (Except.ok.inj hres).symm
            · intro h0 hh
              have hk := hana.2 h0 hh
              rw [hrr]
              exact ⟨by simpa using hk.1, by simpa using hk.2⟩

theorem execute_never_swallows_errors_witness :
    (some (RErr.execFail "page" "boom") : Option RErr)
        = some (RErr.execFail "page" "boom") ∧
    1 ≤ (⟨.ok (some (RErr.execFail "page" "boom")), .base "fine", .stored (some treeErr),
          1, [RErr.execFail "page" "boom"], 0⟩ : ExecRes).hookCalls ∧
    RErr.execFail "page" "boom" ∈
      (⟨.ok (some (RErr.execFail "page" "boom")), .base "fine", .stored (some treeErr),
          1, [RErr.execFail "page" "boom"], 0⟩ : ExecRes).hookErrs := by
  have h := execute_never_swallows_errors engBoom tErr treeErr mdWrap "page" "v"
    (.base "") 9
    ⟨.ok (some (RErr.execFail "page" "boom")), .base "fine", .stored (some treeErr),
      1, [RErr.execFail "page" "boom"], 0⟩
    (some (RErr.execFail "page" "boom")) rfl (by decide) rfl
  have h1 := h.1 (RErr.execFail "page" "boom") (Or.inl rfl) (by decide)
  exact ⟨h1.1, (h1.2.2 "fb" rfl).1, (h1.2.2 "fb" rfl).2⟩

/-- C7: the override-layered filesystem's `Open` first tries the
override source and returns its result whenever it succeeds; only when
the override fails does it fall back to (and return the result of) the
base source; in particular a path present in both layers resolves to the
override's file. -/
theorem override_open_precedence (b o : FS) (p : String) :
    (∀ f, o p = .ok f → OverrideFS.open ⟨b, o⟩ p = .ok f) ∧
    (∀ e, o p = .error e → OverrideFS.open ⟨b, o⟩ p = b p) ∧
    (∀ f g, o p = .ok f → b p = .ok g → OverrideFS.open ⟨b, o⟩ p = .ok f) := by
  refine ⟨fun f h => ?_, fun e h => ?_, fun f g h hb => ?_⟩ <;>
    simp [OverrideFS.open, h]

theorem override_open_precedence_witness :
    OverrideFS.open ⟨fsBaseLayer, fsOverLayer⟩ "p" = .ok ⟨"p", "override content", none⟩ :=
  (override_open_precedence fsBaseLayer fsOverLayer "p").2.2
    ⟨"p", "override content", none⟩ ⟨"p", "base content", none⟩ (by decide) (by decide)

/-- C8: the filtered filesystem's `Open` decides on the opened file's
reported `Stat` name, not the requested path: when that name's extension
is outside the allow-list the call reports not-found even though the
underlying filesystem succeeded, and when it is in the allow-list the
underlying file is returned. -/
theorem filter_open_stat_name (F : FS) (types : List String) (p : String) (f : File) :
    (F p = .ok f → f.statErr = none → isFileType f.name types = false →
      FilterFS.open ⟨F, types⟩ p = .error .notExist) ∧
    (F p = .ok f → f.statErr = none → isFileType f.name types = true →
      FilterFS.open ⟨F, types⟩ p = .ok f) := by
  constructor <;> intro h hs ht <;> simp [FilterFS.open, h, hs, ht]

theorem filter_open_stat_name_witness :
    FilterFS.open ⟨fsStat, [".html"]⟩ "page.html" = .error .notExist :=
  (filter_open_stat_name fsStat [".html"] "page.html" ⟨"page.txt", "data", none⟩).1
    (by decide) rfl (by decide)

/-- C9: `Register` adds a binding only for an absent name and returns the
templater unchanged when the name is present, yielding a Subtemplate
handle for the name in both cases; and `Preregister` skips every
discovered file whose derived name is already registered, so an explicit
registration's path survives the walk. -/
theorem register_explicit_wins (t : Templater) (name path p0 : String)
    (entries : List WalkEntry) :
    (lookupA t.Includes name = some p0 →
      t.Register name path = (t, ⟨name⟩) ∧
      lookupA (Preregister entries t).Includes name = some p0) ∧
    (lookupA t.Includes name = none →
      t.Register name path =
        ({ t with Includes := mapSet t.Includes name path }, ⟨name⟩) ∧
      lookupA (t.Register name path).1.Includes name = some path) := by
  constructor
  · intro h
    refine ⟨by simp [Templater.Register, h], ?_⟩
    exact lookupA_preregister entries t.Includes name p0 h
  · intro h
    refine ⟨by simp [Templater.Register, h], ?_⟩
    simp [Templater.Register, h, lookupA_mapSet]

theorem register_explicit_wins_witness :
    tReg.Register "index" "other.html" = (tReg, ⟨"index"⟩) ∧
      lookupA (Preregister walkReg tReg).Includes "index" = some "pages/index.html" :=
  (register_explicit_wins tReg "index" "other.html" "pages/index.html" walkReg).1
    (by decide)

/-- C10: the `failWriter` marker wrapper forwards every write unchanged
to the writer it wraps: wrapping then writing equals writing then
wrapping, and the bytes arriving at the underlying base sink are exactly
the bytes written, unbuffered and untransformed. -/
theorem failWriter_transparent (w : Writer) (s : String) :
    (Writer.failWrap w).write s = .failWrap (w.write s) ∧
    ((Writer.failWrap w).write s).contents = w.contents ++ s :=
  ⟨rfl, by simp [Writer.write, Writer.contents, Writer.contents_write]⟩

end Tmplutil
